import Mathlib

/-!
Shallow embedding of the APPvisionMRX server core (storage layer and the
Express routes over it): users, scanned boards, lots with denormalized
rollups, and per-user activity sessions.  Numeric columns (`real`,
`numeric`) are modelled as rationals; timestamps as integer milliseconds;
`date` columns as strings; nullable columns as `Option`.
-/

namespace MRX

/-- A row of the `users` table (the fields the verified operations read). -/
structure User where
  id : String
  email : Option String
  passwordHash : Option String
  role : String
  isActive : Bool
  deriving Repr, DecidableEq

/-- A row of the `scanned_boards` table. -/
structure ScannedBoard where
  id : String
  userId : String
  boardType : String
  category : String
  weightKg : Option Rat
  pricePerKg : Option Rat
  totalPrice : Option Rat
  lotId : Option String
  createdAt : Int
  deriving Repr, DecidableEq

/-- A row of the `lots` table. -/
structure Lot where
  id : String
  name : String
  status : String
  totalWeight : Rat
  totalValue : Rat
  itemCount : Nat
  createdAt : Int
  closedAt : Option Int
  deriving Repr, DecidableEq

/-- A row of the `user_sessions` activity table. -/
structure UserSession where
  id : String
  userId : String
  startedAt : Int
  lastActiveAt : Int
  endedAt : Option Int
  durationSeconds : Option Int
  activityDate : String
  deriving Repr, DecidableEq

/-- The relational store the operations act on. -/
structure DB where
  users : List User
  scannedBoards : List ScannedBoard
  lots : List Lot
  userSessions : List UserSession
  deriving Repr, DecidableEq

/-! ### Lot aggregator (storage.ts: updateLotTotals, addBoardsToLot,
removeBoardsFromLot, closeLot) -/

/-- The members of a lot: all scanned boards whose `lotId` points at it
(`where(eq(scannedBoards.lotId, lotId))`). -/
def lotMembers (lotId : String) (db : DB) : List ScannedBoard :=
  db.scannedBoards.filter (fun b => b.lotId == some lotId)

/-- Sum of `weightKg` over a list of boards, `Number(x) || 0` turning an
absent value into 0. -/
def sumWeight (boards : List ScannedBoard) : Rat :=
  boards.foldr (fun b acc => b.weightKg.getD 0 + acc) 0

/-- Sum of `totalPrice` over a list of boards, absent treated as 0. -/
def sumValue (boards : List ScannedBoard) : Rat :=
  boards.foldr (fun b acc => b.totalPrice.getD 0 + acc) 0

/-- `updateLotTotals(lotId)`: reads all boards in the lot, sums weight and
value (absent as 0), counts members, and writes the three rollup fields on
the lot row. -/
def updateLotTotals (lotId : String) (db : DB) : DB :=
  let boards := lotMembers lotId db
  let tw := sumWeight boards
  let tv := sumValue boards
  let n := boards.length
  { db with lots := db.lots.map (fun l =>
      if l.id == lotId then { l with totalWeight := tw, totalValue := tv, itemCount := n } else l) }

/-- `addBoardsToLot(lotId, boardIds)`: the update statement uses
`eq(scannedBoards.id, boardIds[0])`, so only the first supplied id is
re-parented ("Simplified - would need IN clause for multiple" in the
source); then the lot's rollups are recomputed. -/
def addBoardsToLot (lotId : String) (boardIds : List String) (db : DB) : DB :=
  let db1 :=
    match boardIds.head? with
    | some b0 =>
        { db with scannedBoards := db.scannedBoards.map (fun r =>
            if r.id == b0 then { r with lotId := some lotId } else r) }
    | none => db
  updateLotTotals lotId db1

/-- `removeBoardsFromLot(boardIds)`: clears `lotId` where
`eq(scannedBoards.id, boardIds[0])` — only the first id ("Simplified" in
the source) — and performs no rollup recomputation. -/
def removeBoardsFromLot (boardIds : List String) (db : DB) : DB :=
  match boardIds.head? with
  | some b0 =>
      { db with scannedBoards := db.scannedBoards.map (fun r =>
          if r.id == b0 then { r with lotId := none } else r) }
  | none => db

/-- `closeLot(lotId)`: unconditionally sets `status = "closed"` and
`closedAt = new Date()` on the matching lot row and returns it
(`undefined` — here `none` — when no row matched). -/
def closeLot (lotId : String) (now : Int) (db : DB) : Option Lot × DB :=
  let newLots := db.lots.map (fun l =>
    if l.id == lotId then { l with status := "closed", closedAt := some now } else l)
  (newLots.find? (fun l => l.id == lotId), { db with lots := newLots })

/-! ### Scan record update (storage.ts: updateScannedBoard) -/

/-- The patch accepted by `updateScannedBoard`: `none` models an absent
(`undefined`) field of the partial update. -/
structure UpdateScannedBoard where
  weightKg : Option Rat := none
  pricePerKg : Option Rat := none
  deriving Repr, DecidableEq

/-- Apply the patch to one row: set whichever of the two fields is present,
and recompute `totalPrice` only when BOTH `weightKg` and `pricePerKg` are
present in the patch (`updates.weightKg !== undefined &&
updates.pricePerKg !== undefined`); current stored values are never
consulted. -/
def applyBoardUpdate (u : UpdateScannedBoard) (r : ScannedBoard) : ScannedBoard :=
  let r1 := match u.weightKg with
    | some w => { r with weightKg := some w }
    | none => r
  let r2 := match u.pricePerKg with
    | some p => { r1 with pricePerKg := some p }
    | none => r1
  match u.weightKg, u.pricePerKg with
  | some w, some p => { r2 with totalPrice := some (w * p) }
  | _, _ => r2

/-- `updateScannedBoard(id, updates)`: updates the matching row and returns
it (`none` when no row matched). -/
def updateScannedBoard (id : String) (u : UpdateScannedBoard) (db : DB) :
    Option ScannedBoard × DB :=
  let newBoards := db.scannedBoards.map (fun r =>
    if r.id == id then applyBoardUpdate u r else r)
  (newBoards.find? (fun r => r.id == id), { db with scannedBoards := newBoards })

/-! ### Activity sessions (storage.ts: getUserActiveSessions,
createUserSession, updateUserSession, endUserSession; routes.ts:
/api/activity/start, /api/activity/ping, /api/activity/end) -/

/-- `getUserActiveSessions(userId)`: sessions of the user with
`endedAt IS NULL`, ordered by `startedAt` descending. -/
def getUserActiveSessions (userId : String) (db : DB) : List UserSession :=
  (db.userSessions.filter (fun s => s.userId == userId && s.endedAt == none)).mergeSort
    (fun a b => decide (b.startedAt ≤ a.startedAt))

/-- `POST /api/activity/start`: if the caller already has an open session,
return the first of `getUserActiveSessions` unchanged; otherwise insert a
fresh session with `startedAt = lastActiveAt = now` and
`activityDate = today` (`freshId` standing for the generated primary key). -/
def startSession (userId : String) (now : Int) (today : String) (freshId : String)
    (db : DB) : UserSession × DB :=
  match getUserActiveSessions userId db with
  | s :: _ => (s, db)
  | [] =>
      let s : UserSession :=
        { id := freshId, userId := userId, startedAt := now, lastActiveAt := now,
          endedAt := none, durationSeconds := none, activityDate := today }
      (s, { db with userSessions := db.userSessions ++ [s] })

/-- `POST /api/activity/ping`: `updateUserSession(sessionId,
\x7b lastActiveAt: now \x7d)` updates the matching row (whatever its state) and
the route always answers success, with `session` equal to the updated row
or `undefined` (`none`) when no row matched. -/
def pingSession (sessionId : String) (now : Int) (db : DB) :
    Option UserSession × DB :=
  let newSessions := db.userSessions.map (fun s =>
    if s.id == sessionId then { s with lastActiveAt := now } else s)
  (newSessions.find? (fun s => s.id == sessionId), { db with userSessions := newSessions })

/-- `endUserSession(sessionId, endedAt, duration)`: sets `endedAt` and
`durationSeconds` on the matching row. -/
def endUserSession (sessionId : String) (endedAt : Int) (duration : Int) (db : DB) : DB :=
  { db with userSessions := db.userSessions.map (fun s =>
      if s.id == sessionId then { s with endedAt := some endedAt, durationSeconds := some duration } else s) }

/-- `POST /api/activity/end`: 400 when `sessionId` is falsy (empty);
otherwise looks the id up among the CALLER's open sessions, answering 404
(database untouched) when absent or already closed; on success computes
`duration = Math.floor((now - startedAt) / 1000)` (floor division on
milliseconds) and persists `endedAt = now` with that duration, answering
200. -/
def endSessionRoute (userId sessionId : String) (now : Int) (db : DB) : Nat × DB :=
  if sessionId == "" then (400, db)
  else
    match (getUserActiveSessions userId db).find? (fun s => s.id == sessionId) with
    | none => (404, db)
    | some s => (200, endUserSession sessionId now (Int.fdiv (now - s.startedAt) 1000) db)

/-- The body of the ping route's reply: HTTP status, the `success` flag,
and the `session` field (the updated row, or `undefined` when no row
matched). -/
structure PingReply where
  status : Nat
  success : Bool
  session : Option UserSession
  deriving Repr, DecidableEq

/-- `POST /api/activity/ping` at route level: 400 when `sessionId` is
falsy; otherwise always 200 with `success: true`, whether or not any row
matched and whatever state the matched row was in. -/
def pingRoute (sessionId : String) (now : Int) (db : DB) : PingReply × DB :=
  if sessionId == "" then ({ status := 400, success := false, session := none }, db)
  else
    let r := pingSession sessionId now db
    ({ status := 200, success := true, session := r.1 }, r.2)

/-! ### Listing scanned boards (storage.ts: getScannedBoards; routes.ts:
GET /api/scanned-boards) -/

/-- The filter record passed to `getScannedBoards`. -/
structure BoardFilters where
  userId : Option String := none
  boardType : Option String := none
  category : Option String := none
  startDate : Option Int := none
  endDate : Option Int := none
  limit : Option Nat := none
  offset : Option Nat := none

/-- The conjunction of the pushed conditions: each filter contributes only
when present and truthy (a JavaScript `if (filters?.x)` guard, so an empty
string contributes nothing). `like %s%` is substring containment on the
board type. -/
def boardMatches (f : BoardFilters) (b : ScannedBoard) : Bool :=
  (match f.userId with
   | some u => if u == "" then true else b.userId == u
   | none => true) &&
  (match f.boardType with
   | some t => if t == "" then true else decide (List.IsInfix t.toList b.boardType.toList)
   | none => true) &&
  (match f.category with
   | some c => if c == "" then true else b.category == c
   | none => true) &&
  (match f.startDate with
   | some d => decide (d ≤ b.createdAt)
   | none => true) &&
  (match f.endDate with
   | some d => decide (b.createdAt ≤ d)
   | none => true)

/-- `getScannedBoards(filters)`: filter, order by `createdAt` descending,
then apply OFFSET and LIMIT. -/
def getScannedBoards (f : BoardFilters) (db : DB) : List ScannedBoard :=
  let rows := (db.scannedBoards.filter (boardMatches f)).mergeSort
    (fun a b => decide (b.createdAt ≤ a.createdAt))
  let rows := match f.offset with
    | some o => rows.drop o
    | none => rows
  match f.limit with
  | some l => rows.take l
  | none => rows

/-- `GET /api/scanned-boards`: non-admin callers get `filters.userId`
forced to their own id; `boardType`, `startDate`, `endDate` come from the
query when supplied, and `limit`/`offset` are always set. -/
def listScannedBoardsRoute (caller : User) (boardType : Option String)
    (startDate endDate : Option Int) (lim off : Nat) (db : DB) : List ScannedBoard :=
  let f : BoardFilters :=
    { userId := if caller.role == "admin" then none else some caller.id,
      boardType := boardType, startDate := startDate, endDate := endDate,
      limit := some lim, offset := some off }
  getScannedBoards f db

/-! ### Authentication (lib/auth.ts: authenticateUser; storage.ts:
getUserByEmail, deactivateUser) -/

/-- `getUserByEmail(email)`: first user row whose `email` column equals the
argument. -/
def getUserByEmail (email : String) (db : DB) : Option User :=
  db.users.find? (fun u => u.email == some email)

/-- `deactivateUser(id)`: sets `isActive = false` on the matching user row. -/
def deactivateUser (id : String) (db : DB) : DB :=
  { db with users := db.users.map (fun u =>
      if u.id == id then { u with isActive := false } else u) }

/-- `authenticateUser(email, password)`: `null` when the user is missing,
has a falsy `passwordHash` (absent or empty), or is inactive; otherwise
the outcome of the bcrypt comparison, abstracted as `verify password
hash`. Returns the user on success. -/
def authenticateUser (verify : String → String → Bool) (email password : String)
    (db : DB) : Option User :=
  match getUserByEmail email db with
  | none => none
  | some u =>
      match u.passwordHash with
      | none => none
      | some h =>
          if h == "" then none
          else if !u.isActive then none
          else if verify password h then some u else none

/-! ### Helper lemmas -/

/-- Membership in the active-session list is membership in the table with
the owner and open-state conditions. -/
theorem mem_getUserActiveSessions {userId : String} {db : DB} {s : UserSession} :
    s ∈ getUserActiveSessions userId db ↔
      s ∈ db.userSessions ∧ s.userId = userId ∧ s.endedAt = none := by
  simp [getUserActiveSessions, List.mem_filter, and_assoc]

/-- Every board returned by `getScannedBoards` is a stored board matching
the pushed conditions. -/
theorem mem_of_mem_getScannedBoards {f : BoardFilters} {db : DB} {b : ScannedBoard}
    (h : b ∈ getScannedBoards f db) :
    b ∈ db.scannedBoards ∧ boardMatches f b = true := by
  simp only [getScannedBoards] at h
  have h1 : b ∈ (db.scannedBoards.filter (boardMatches f)).mergeSort
      (fun a b => decide (b.createdAt ≤ a.createdAt)) := by
    cases hl : f.limit with
    | none =>
      cases ho : f.offset with
      | none => simpa [hl, ho] using h
      | some o => exact List.mem_of_mem_drop (by simpa [hl, ho] using h)
    | some l =>
      cases ho : f.offset with
      | none => exact List.mem_of_mem_take (by simpa [hl, ho] using h)
      | some o =>
        exact List.mem_of_mem_drop (List.mem_of_mem_take (by simpa [hl, ho] using h))
  rw [List.mem_mergeSort, List.mem_filter] at h1
  exact h1

/-- C8: `recomputeTotals(lotId)` (source name `updateLotTotals`) sets the
lot's `totalWeight` to the sum of `weightKg` over its current members
(absent as 0), `totalValue` to the sum of their `totalPrice` (absent as
0), and `itemCount` to the member count; and since it fully recomputes
from the source rows, running it twice in a row yields the same state
(idempotence). -/
theorem updateLotTotals_spec (lotId : String) (db : DB) (l : Lot)
    (hmem : l ∈ (updateLotTotals lotId db).lots) (hid : l.id = lotId) :
    (l.totalWeight = sumWeight (lotMembers lotId db) ∧
     l.totalValue = sumValue (lotMembers lotId db) ∧
     l.itemCount = (lotMembers lotId db).length) ∧
    updateLotTotals lotId (updateLotTotals lotId db) = updateLotTotals lotId db := by
  constructor
  · simp only [updateLotTotals] at hmem
    obtain ⟨x, hx, hfx⟩ := List.mem_map.mp hmem
    split at hfx
    · subst hfx
      exact ⟨rfl, rfl, rfl⟩
    · rename_i hne
      subst hfx
      simp [hid] at hne
  · have hkey : ∀ X : List Lot, lotMembers lotId { db with lots := X } = lotMembers lotId db :=
      fun _ => rfl
    simp only [updateLotTotals, hkey]
    congr 1
    rw [List.map_map]
    apply List.map_congr_left
    intro x _
    by_cases h : x.id = lotId <;> simp [h]

/-! ### Concrete fixtures -/

/-- An open lot with zeroed rollups. -/
def lotL1 : Lot :=
  { id := "L1", name := "Lot 1", status := "open", totalWeight := 0, totalValue := 0,
    itemCount := 0, createdAt := 0, closedAt := none }

/-- A board already in lot `L1`: 1.5 kg at 2 per kg. -/
def boardB1 : ScannedBoard :=
  { id := "B1", userId := "u1", boardType := "tv main", category := "TV",
    weightKg := some (3/2), pricePerKg := some 2, totalPrice := some 3,
    lotId := some "L1", createdAt := 10 }

/-- A board already in lot `L1`: 2 kg at 3 per kg. -/
def boardB2 : ScannedBoard :=
  { id := "B2", userId := "u1", boardType := "power board", category := "TV",
    weightKg := some 2, pricePerKg := some 3, totalPrice := some 6,
    lotId := some "L1", createdAt := 20 }

/-- Store with two boards inside lot `L1`. -/
def dbTwoInLot : DB :=
  { users := [], scannedBoards := [boardB1, boardB2], lots := [lotL1], userSessions := [] }

/-- Store with the same two boards NOT yet in any lot. -/
def dbTwoLoose : DB :=
  { users := [],
    scannedBoards := [{ boardB1 with lotId := none }, { boardB2 with lotId := none }],
    lots := [lotL1], userSessions := [] }

/-- Witness for the recompute claim: in `dbTwoInLot` the recomputed lot
row carries weight 7/2, value 9 and two items. -/
theorem updateLotTotals_spec_witness :
    ({ lotL1 with totalWeight := 7/2, totalValue := 9, itemCount := 2 } ∈
        (updateLotTotals "L1" dbTwoInLot).lots ∧
      ({ lotL1 with totalWeight := 7/2, totalValue := 9, itemCount := 2 } : Lot).id = "L1") ∧
    (({ lotL1 with totalWeight := 7/2, totalValue := 9, itemCount := 2 } : Lot).totalWeight =
        sumWeight (lotMembers "L1" dbTwoInLot) ∧
      ({ lotL1 with totalWeight := 7/2, totalValue := 9, itemCount := 2 } : Lot).totalValue =
        sumValue (lotMembers "L1" dbTwoInLot) ∧
      ({ lotL1 with totalWeight := 7/2, totalValue := 9, itemCount := 2 } : Lot).itemCount =
        (lotMembers "L1" dbTwoInLot).length) ∧
    updateLotTotals "L1" (updateLotTotals "L1" dbTwoInLot) = updateLotTotals "L1" dbTwoInLot := by
  have hmem : { lotL1 with totalWeight := 7/2, totalValue := 9, itemCount := 2 } ∈
      (updateLotTotals "L1" dbTwoInLot).lots := by
    simp [updateLotTotals, lotMembers, sumWeight, sumValue, dbTwoInLot, boardB1, boardB2, lotL1]
    norm_num
  exact ⟨⟨hmem, rfl⟩,
    (updateLotTotals_spec "L1" dbTwoInLot _ hmem rfl).1,
    (updateLotTotals_spec "L1" dbTwoInLot _ hmem rfl).2⟩

/-- C1: evaluation of `addBoardsToLot` on a lot and a two-element id list:
only the FIRST board is re-parented into the lot; the second keeps
`lotId = none`, contradicting the claim that every supplied record is
re-parented. -/
theorem addBoardsToLot_truncation :
    (addBoardsToLot "L1" ["B1", "B2"] dbTwoLoose).scannedBoards.map (fun b => (b.id, b.lotId)) =
      [("B1", some "L1"), ("B2", none)] := by
  simp [addBoardsToLot, updateLotTotals, dbTwoLoose, boardB1, boardB2]

/-- C4: evaluation of `removeBoardsFromLot` on a two-element id list over
a store whose two boards are in lot `L1`: only the FIRST board's `lotId`
is cleared, and the lots table — rollups included — is left untouched
(no recompute is performed at all). -/
theorem removeBoardsFromLot_truncation :
    ((removeBoardsFromLot ["B1", "B2"] dbTwoInLot).scannedBoards.map (fun b => (b.id, b.lotId)) =
        [("B1", none), ("B2", some "L1")]) ∧
      (removeBoardsFromLot ["B1", "B2"] dbTwoInLot).lots = dbTwoInLot.lots := by
  constructor <;> simp [removeBoardsFromLot, dbTwoInLot, boardB1, boardB2]

/-- A stored board with both weight (2 kg) and price (3 per kg) set,
`totalPrice = 6`. -/
def boardB3 : ScannedBoard :=
  { id := "B3", userId := "u1", boardType := "radio", category := "Radio",
    weightKg := some 2, pricePerKg := some 3, totalPrice := some 6,
    lotId := none, createdAt := 30 }

/-- Store holding just `boardB3`. -/
def dbB3 : DB :=
  { users := [], scannedBoards := [boardB3], lots := [], userSessions := [] }

/-- C3: evaluation of `updateScannedBoard` at an update touching only
`weightKg` while `pricePerKg` already has a stored value: the code never
fetches current values, so `totalPrice` stays at the stale 6 instead of
the recomputed 5 × 3 = 15, breaking the product invariant. -/
theorem updateScannedBoard_stale_totalPrice :
    ∃ b, (updateScannedBoard "B3" { weightKg := some 5 } dbB3).1 = some b ∧
      b.weightKg = some 5 ∧ b.pricePerKg = some 3 ∧
      b.totalPrice = some 6 ∧ b.totalPrice ≠ some ((5 : Rat) * 3) := by
  refine ⟨{ boardB3 with weightKg := some 5 }, ?_, rfl, rfl, rfl, ?_⟩
  · simp [updateScannedBoard, applyBoardUpdate, dbB3, boardB3]
  · simp [boardB3]
    norm_num

/-- A lot already closed at time 100. -/
def lotL2 : Lot :=
  { id := "L2", name := "Lot 2", status := "closed", totalWeight := 0, totalValue := 0,
    itemCount := 0, createdAt := 0, closedAt := some 100 }

/-- Store holding just the closed lot `L2`. -/
def dbClosedLot : DB :=
  { users := [], scannedBoards := [], lots := [lotL2], userSessions := [] }

/-- C2 counterexample: calling close at time 200 on the lot already closed
at time 100 is NOT a no-op error — it succeeds (returns the lot) and
overwrites `closedAt` from 100 to 200, so `closedAt` is not set exactly
once. -/
theorem closeLot_reclose_counterexample :
    ∃ l, (closeLot "L2" 200 dbClosedLot).1 = some l ∧
      l.closedAt = some 200 ∧ l.closedAt ≠ some 100 := by
  refine ⟨{ lotL2 with closedAt := some 200 }, ?_, rfl, by simp⟩
  simp [closeLot, dbClosedLot, lotL2]

/-- C2 amended: `closeLot` succeeds exactly when a lot with the id exists
(`NotFound` — `none` — otherwise), and every successful call, including a
re-close of an already-closed lot, sets `status = "closed"` and
`closedAt = now`, overwriting any earlier close time. -/
theorem closeLot_spec (lotId : String) (now : Int) (db : DB) :
    (∀ l, (closeLot lotId now db).1 = some l →
        l.status = "closed" ∧ l.closedAt = some now) ∧
    ((closeLot lotId now db).1.isSome ↔ ∃ x ∈ db.lots, x.id = lotId) := by
  constructor
  · intro l hl
    simp only [closeLot] at hl
    have hp := List.find?_some hl
    have hmem := List.mem_of_find?_eq_some hl
    obtain ⟨x, hx, hfx⟩ := List.mem_map.mp hmem
    split at hfx
    · subst hfx
      exact ⟨rfl, rfl⟩
    · rename_i hne
      subst hfx
      rw [beq_iff_eq] at hp
      simp [hp] at hne
  · have hidp : ∀ y : Lot,
        ((if y.id == lotId then { y with status := "closed", closedAt := some now } else y) : Lot).id
          = y.id := by
      intro y
      by_cases h : y.id == lotId <;> simp [h]
    simp only [closeLot]
    rw [List.find?_isSome]
    constructor
    · rintro ⟨l, hmem, hp⟩
      obtain ⟨x, hx, hfx⟩ := List.mem_map.mp hmem
      refine ⟨x, hx, ?_⟩
      rw [beq_iff_eq] at hp
      rw [← hfx, hidp x] at hp
      exact hp
    · rintro ⟨x, hx, hxid⟩
      refine ⟨_, List.mem_map.mpr ⟨x, hx, rfl⟩, ?_⟩
      rw [beq_iff_eq, hidp x]
      exact hxid

/-- Witness for the amended close claim at the concrete closed-lot store:
the re-close at time 200 succeeds and the returned lot is closed with
`closedAt = 200`. -/
theorem closeLot_spec_witness :
    (∃ l, (closeLot "L2" 200 dbClosedLot).1 = some l ∧
      l.status = "closed" ∧ l.closedAt = some 200) ∧
    (closeLot "L2" 200 dbClosedLot).1.isSome := by
  have hfind : (closeLot "L2" 200 dbClosedLot).1 = some ({ lotL2 with closedAt := some 200 }) := by
    simp [closeLot, dbClosedLot, lotL2]
  refine ⟨⟨{ lotL2 with closedAt := some 200 }, hfind,
    (closeLot_spec "L2" 200 dbClosedLot).1 _ hfind⟩, ?_⟩
  exact (closeLot_spec "L2" 200 dbClosedLot).2.mpr ⟨lotL2, by simp [dbClosedLot], rfl⟩

/-- A session of user `u1` that ended at time 50. -/
def sessClosed : UserSession :=
  { id := "S1", userId := "u1", startedAt := 0, lastActiveAt := 10, endedAt := some 50,
    durationSeconds := some 0, activityDate := "2025-01-01" }

/-- Store holding just the closed session `S1`. -/
def dbClosedSess : DB :=
  { users := [], scannedBoards := [], lots := [], userSessions := [sessClosed] }

/-- C5 counterexample: pinging the session that is already closed
(`endedAt = some 50`) is answered 200/success and DOES modify the closed
session (its `lastActiveAt` moves to 200); and pinging an id that does
not exist is also answered 200/success rather than failing with an
error. -/
theorem pingSession_counterexample :
    ((pingRoute "S1" 200 dbClosedSess).1.success = true ∧
      (pingRoute "S1" 200 dbClosedSess).2.userSessions =
        [{ sessClosed with lastActiveAt := 200 }]) ∧
    ((pingRoute "ABSENT" 200 dbClosedSess).1.status = 200 ∧
      (pingRoute "ABSENT" 200 dbClosedSess).1.success = true) := by
  refine ⟨⟨rfl, ?_⟩, rfl, rfl⟩
  simp [pingRoute, pingSession, dbClosedSess, sessClosed]

/-- C5 amended: for a truthy session id, ping always answers success; it
sets `lastActiveAt = now` on every stored session with that id — open or
closed alike — leaves every `endedAt` untouched (so no closed session is
resurrected, but closed sessions ARE still modified), leaves sessions
with other ids unchanged, and when no session carries the id the store is
unchanged and the call is a silent success, not an error. -/
theorem pingSession_spec (sessionId : String) (now : Int) (db : DB)
    (hsid : sessionId ≠ "") :
    (pingRoute sessionId now db).1.success = true ∧
    ((pingRoute sessionId now db).2.userSessions.map (fun s => s.endedAt) =
      db.userSessions.map (fun s => s.endedAt)) ∧
    (∀ s ∈ db.userSessions, s.id = sessionId →
      { s with lastActiveAt := now } ∈ (pingRoute sessionId now db).2.userSessions) ∧
    (∀ s ∈ db.userSessions, s.id ≠ sessionId →
      s ∈ (pingRoute sessionId now db).2.userSessions) ∧
    ((∀ s ∈ db.userSessions, s.id ≠ sessionId) → (pingRoute sessionId now db).2 = db) := by
  have hg : (sessionId == "") = false := by simpa using hsid
  have hsnd : (pingRoute sessionId now db).2 =
      { db with userSessions := db.userSessions.map (fun s =>
          if s.id == sessionId then { s with lastActiveAt := now } else s) } := by
    simp [pingRoute, pingSession, hg]
  refine ⟨by simp [pingRoute, hg], ?_, ?_, ?_, ?_⟩
  · rw [hsnd]
    show List.map _ (List.map _ _) = _
    rw [List.map_map]
    apply List.map_congr_left
    intro s _
    by_cases h : s.id = sessionId <;> simp [h]
  · intro s hs hid
    rw [hsnd]
    exact List.mem_map.mpr ⟨s, hs, by simp [hid]⟩
  · intro s hs hid
    rw [hsnd]
    exact List.mem_map.mpr ⟨s, hs, by simp [hid]⟩
  · intro hall
    rw [hsnd]
    have h1 : db.userSessions.map (fun s =>
        if s.id == sessionId then { s with lastActiveAt := now } else s) =
        db.userSessions.map id :=
      List.map_congr_left (fun s hs => by simp [hall s hs])
    rw [h1.trans (List.map_id _)]

/-- Witness for the amended ping claim on the closed-session store: the
call succeeds and the closed session reappears with `lastActiveAt = 200`
while every `endedAt` is preserved. -/
theorem pingSession_spec_witness :
    (("S1" : String) ≠ "" ∧ sessClosed ∈ dbClosedSess.userSessions ∧ sessClosed.id = "S1") ∧
    (pingRoute "S1" 200 dbClosedSess).1.success = true ∧
    { sessClosed with lastActiveAt := 200 } ∈ (pingRoute "S1" 200 dbClosedSess).2.userSessions ∧
    ((pingRoute "S1" 200 dbClosedSess).2.userSessions.map (fun s => s.endedAt) =
      dbClosedSess.userSessions.map (fun s => s.endedAt)) := by
  have h := pingSession_spec "S1" 200 dbClosedSess (by decide)
  exact ⟨⟨by decide, by decide, rfl⟩, h.1,
    h.2.2.1 sessClosed (by decide) rfl, h.2.1⟩

/-- C6: ending a session 404s when the caller has no open session with the
given id (absent or already closed), leaving the store untouched; on
success it stamps `endedAt = now` and `durationSeconds = floor((now -
startedAt) / 1000)` on the session; and once a call has succeeded, any
further end call on the same id — by any caller, at any time — 404s
without changing the store (so the stored duration is not corrupted). -/
theorem endSessionRoute_spec (userId sessionId : String) (now : Int) (db : DB)
    (hsid : sessionId ≠ "") :
    ((∀ s ∈ db.userSessions, ¬(s.id = sessionId ∧ s.userId = userId ∧ s.endedAt = none)) →
        endSessionRoute userId sessionId now db = (404, db)) ∧
    (∀ s, (getUserActiveSessions userId db).find? (fun t => t.id == sessionId) = some s →
        (endSessionRoute userId sessionId now db).1 = 200 ∧
        (∀ r ∈ (endSessionRoute userId sessionId now db).2.userSessions, r.id = sessionId →
          r.endedAt = some now ∧
          r.durationSeconds = some (Int.fdiv (now - s.startedAt) 1000))) ∧
    ((endSessionRoute userId sessionId now db).1 = 200 →
      ∀ uid2 now2,
        endSessionRoute uid2 sessionId now2 (endSessionRoute userId sessionId now db).2 =
          (404, (endSessionRoute userId sessionId now db).2)) := by
  have hg : (sessionId == "") = false := by simpa using hsid
  refine ⟨?_, ?_, ?_⟩
  · intro hnone
    have hfind : (getUserActiveSessions userId db).find? (fun t => t.id == sessionId) = none := by
      rw [List.find?_eq_none]
      intro x hx
      obtain ⟨hmem, huid, hend⟩ := mem_getUserActiveSessions.mp hx
      have hx2 := hnone x hmem
      simp only [huid, hend, and_true, true_and, not_and] at hx2
      simpa using hx2
    simp [endSessionRoute, hg, hfind]
  · intro s hfind
    have hsnd : (endSessionRoute userId sessionId now db).2 =
        endUserSession sessionId now (Int.fdiv (now - s.startedAt) 1000) db := by
      simp [endSessionRoute, hg, hfind]
    refine ⟨by simp [endSessionRoute, hg, hfind], ?_⟩
    intro r hr hid
    rw [hsnd] at hr
    simp only [endUserSession] at hr
    obtain ⟨x, hx, hfx⟩ := List.mem_map.mp hr
    split at hfx
    · subst hfx
      exact ⟨rfl, rfl⟩
    · rename_i hne
      subst hfx
      simp [hid] at hne
  · intro h200 uid2 now2
    cases hfind : (getUserActiveSessions userId db).find? (fun t => t.id == sessionId) with
    | none => simp [endSessionRoute, hg, hfind] at h200
    | some s0 =>
      have hsnd : (endSessionRoute userId sessionId now db).2 =
          endUserSession sessionId now (Int.fdiv (now - s0.startedAt) 1000) db := by
        simp [endSessionRoute, hg, hfind]
      rw [hsnd]
      have hfind2 : (getUserActiveSessions uid2
            (endUserSession sessionId now (Int.fdiv (now - s0.startedAt) 1000) db)).find?
            (fun t => t.id == sessionId) = none := by
        rw [List.find?_eq_none]
        intro x hx
        obtain ⟨hmem, huid, hend⟩ := mem_getUserActiveSessions.mp hx
        simp only [endUserSession] at hmem
        obtain ⟨y, hy, hfy⟩ := List.mem_map.mp hmem
        split at hfy
        · subst hfy
          simp at hend
        · rename_i hne
          subst hfy
          simpa using hne
      simp [endSessionRoute, hg, hfind2]

/-- An open session of user `u1` started at time 1000. -/
def sessOpen : UserSession :=
  { id := "S2", userId := "u1", startedAt := 1000, lastActiveAt := 1000, endedAt := none,
    durationSeconds := none, activityDate := "2025-01-02" }

/-- Store holding just the open session `S2`. -/
def dbOpenSess : DB :=
  { users := [], scannedBoards := [], lots := [], userSessions := [sessOpen] }

/-- Witness for the end-session claim: ending `S2` at 5500 succeeds with
duration 4 whole seconds, and a second end call 404s without touching the
store. -/
theorem endSessionRoute_spec_witness :
    (("S2" : String) ≠ "" ∧
      (getUserActiveSessions "u1" dbOpenSess).find? (fun t => t.id == "S2") = some sessOpen) ∧
    (endSessionRoute "u1" "S2" 5500 dbOpenSess).1 = 200 ∧
    (∀ r ∈ (endSessionRoute "u1" "S2" 5500 dbOpenSess).2.userSessions, r.id = "S2" →
      r.endedAt = some 5500 ∧ r.durationSeconds = some (Int.fdiv (5500 - 1000) 1000)) ∧
    endSessionRoute "u2" "S2" 9999 (endSessionRoute "u1" "S2" 5500 dbOpenSess).2 =
      (404, (endSessionRoute "u1" "S2" 5500 dbOpenSess).2) := by
  have hfind : (getUserActiveSessions "u1" dbOpenSess).find? (fun t => t.id == "S2") =
      some sessOpen := by
    simp [getUserActiveSessions, dbOpenSess, sessOpen]
  have h := endSessionRoute_spec "u1" "S2" 5500 dbOpenSess (by decide)
  have hb := h.2.1 sessOpen hfind
  exact ⟨⟨by decide, hfind⟩, hb.1, hb.2, h.2.2 hb.1 "u2" 9999⟩

/-- C7: starting a session is idempotent — a second start for the same
user, at any later time and with any fresh id, returns exactly the
session the first start returned and leaves the store unchanged; and when
the user had no open session the first start creates one with
`startedAt = lastActiveAt = now`, `activityDate = today` and a null
`endedAt`. -/
theorem startSession_idempotent (userId : String) (now now2 : Int)
    (today today2 fid fid2 : String) (db : DB) :
    (startSession userId now2 today2 fid2 (startSession userId now today fid db).2).1 =
      (startSession userId now today fid db).1 ∧
    (startSession userId now2 today2 fid2 (startSession userId now today fid db).2).2 =
      (startSession userId now today fid db).2 ∧
    (getUserActiveSessions userId db = [] →
      (startSession userId now today fid db).1 =
        { id := fid, userId := userId, startedAt := now, lastActiveAt := now,
          endedAt := none, durationSeconds := none, activityDate := today }) := by
  cases h : getUserActiveSessions userId db with
  | cons s rest =>
    have h1 : startSession userId now today fid db = (s, db) := by
      simp [startSession, h]
    have h2 : startSession userId now2 today2 fid2 db = (s, db) := by
      simp [startSession, h]
    rw [h1]
    refine ⟨by rw [h2], by rw [h2], ?_⟩
    intro habs
    exact absurd habs (by simp)
  | nil =>
    have h1 : startSession userId now today fid db =
        ({ id := fid, userId := userId, startedAt := now, lastActiveAt := now,
           endedAt := none, durationSeconds := none, activityDate := today },
         { db with userSessions := db.userSessions ++
             [{ id := fid, userId := userId, startedAt := now, lastActiveAt := now,
                endedAt := none, durationSeconds := none, activityDate := today }] }) := by
      simp [startSession, h]
    have hfil : db.userSessions.filter (fun s => s.userId == userId && s.endedAt == none) = [] := by
      have hlen := congrArg List.length h
      simp only [getUserActiveSessions, List.length_mergeSort, List.length_nil] at hlen
      exact List.length_eq_zero.mp hlen
    have h2 : getUserActiveSessions userId
        { db with userSessions := db.userSessions ++
            [{ id := fid, userId := userId, startedAt := now, lastActiveAt := now,
               endedAt := none, durationSeconds := none, activityDate := today }] } =
        [{ id := fid, userId := userId, startedAt := now, lastActiveAt := now,
           endedAt := none, durationSeconds := none, activityDate := today }] := by
      simp only [getUserActiveSessions]
      rw [List.filter_append, hfil]
      simp
    rw [h1]
    refine ⟨?_, ?_, fun _ => rfl⟩
    · show (startSession userId now2 today2 fid2 _).1 = _
      simp [startSession, h2]
    · show (startSession userId now2 today2 fid2 _).2 = _
      simp [startSession, h2]

/-- A store with no sessions at all. -/
def dbEmptySess : DB :=
  { users := [], scannedBoards := [], lots := [], userSessions := [] }

/-- Witness for start idempotence: in a store with no sessions, two starts
in a row return the same session (the one created by the first) and the
second changes nothing. -/
theorem startSession_idempotent_witness :
    (getUserActiveSessions "u1" dbEmptySess = []) ∧
    (startSession "u1" 200 "2025-01-03" "F2"
        (startSession "u1" 100 "2025-01-02" "F1" dbEmptySess).2).1 =
      (startSession "u1" 100 "2025-01-02" "F1" dbEmptySess).1 ∧
    (startSession "u1" 200 "2025-01-03" "F2"
        (startSession "u1" 100 "2025-01-02" "F1" dbEmptySess).2).2 =
      (startSession "u1" 100 "2025-01-02" "F1" dbEmptySess).2 ∧
    (startSession "u1" 100 "2025-01-02" "F1" dbEmptySess).1 =
      { id := "F1", userId := "u1", startedAt := 100, lastActiveAt := 100,
        endedAt := none, durationSeconds := none, activityDate := "2025-01-02" } := by
  have hnil : getUserActiveSessions "u1" dbEmptySess = [] := by
    simp [getUserActiveSessions, dbEmptySess]
  have h := startSession_idempotent "u1" 100 200 "2025-01-02" "2025-01-03" "F1" "F2" dbEmptySess
  exact ⟨hnil, h.1, h.2.1, h.2.2 hnil⟩

/-- A board passing the filters with a present `userId` condition carries
that owner. -/
theorem boardMatches_userId {f : BoardFilters} {b : ScannedBoard} {u : String}
    (h : boardMatches f b = true) (hu : f.userId = some u) (hne : u ≠ "") :
    b.userId = u := by
  simp only [boardMatches, Bool.and_eq_true] at h
  have h1 := h.1.1.1.1
  rw [hu] at h1
  have hub : (u == "") = false := by simpa using hne
  simp [hub] at h1
  exact h1

/-- C9: for every non-admin caller (with the nonempty generated id every
stored user carries) and every combination of supplied query filters,
each board returned by the listing route belongs to the caller. -/
theorem listScannedBoards_owner_only (caller : User) (boardType : Option String)
    (startDate endDate : Option Int) (lim off : Nat) (db : DB)
    (hrole : caller.role ≠ "admin") (hcid : caller.id ≠ "") :
    ∀ b ∈ listScannedBoardsRoute caller boardType startDate endDate lim off db,
      b.userId = caller.id := by
  intro b hb
  have hadm : (caller.role == "admin") = false := by simpa using hrole
  simp only [listScannedBoardsRoute] at hb
  have h := mem_of_mem_getScannedBoards hb
  exact boardMatches_userId h.2 (by simp [hadm]) hcid

/-- A regular (non-admin) user. -/
def userU2 : User :=
  { id := "u2", email := some "u2@x.y", passwordHash := some "h", role := "user",
    isActive := true }

/-- A board owned by `u2`. -/
def boardOwn : ScannedBoard :=
  { id := "B7", userId := "u2", boardType := "tv", category := "TV", weightKg := none,
    pricePerKg := none, totalPrice := none, lotId := none, createdAt := 100 }

/-- A board owned by someone else. -/
def boardOther : ScannedBoard :=
  { id := "B8", userId := "u9", boardType := "radio", category := "Radio", weightKg := none,
    pricePerKg := none, totalPrice := none, lotId := none, createdAt := 200 }

/-- Store mixing boards of two different owners. -/
def dbMixedBoards : DB :=
  { users := [userU2], scannedBoards := [boardOwn, boardOther], lots := [], userSessions := [] }

/-- Witness for the owner-only listing claim: the non-admin `u2` with no
extra filters only ever receives their own boards. -/
theorem listScannedBoards_owner_only_witness :
    (userU2.role ≠ "admin" ∧ userU2.id ≠ "") ∧
    ∀ b ∈ listScannedBoardsRoute userU2 none none none 20 0 dbMixedBoards,
      b.userId = userU2.id :=
  ⟨⟨by decide, by decide⟩,
   listScannedBoards_owner_only userU2 none none none 20 0 dbMixedBoards
     (by decide) (by decide)⟩

/-- C10: a stored user who is inactive or has no password hash can never
authenticate — `authenticateUser` answers `null` for every password and
every possible bcrypt outcome — and after `deactivateUser` on a stored
user's id, login under that email is locked out entirely. -/
theorem authenticateUser_locked_out (verify : String → String → Bool)
    (email password : String) (db : DB) (u : User)
    (hu : getUserByEmail email db = some u)
    (hlock : u.isActive = false ∨ u.passwordHash = none) :
    authenticateUser verify email password db = none ∧
    authenticateUser verify email password (deactivateUser u.id db) = none := by
  constructor
  · simp only [authenticateUser, hu]
    rcases hlock with hia | hph
    · cases hph2 : u.passwordHash with
      | none => rfl
      | some h =>
        by_cases hh : h == "" <;> simp [hh, hia]
    · simp [hph]
  · have hfe : ∀ x : User,
        ((if x.id == u.id then { x with isActive := false } else x) : User).email = x.email := by
      intro x
      by_cases h : x.id == u.id <;> simp [h]
    have hpf : ((fun x : User => x.email == some email) ∘
        (fun x => if x.id == u.id then { x with isActive := false } else x)) =
        (fun x : User => x.email == some email) := by
      funext x
      simp only [Function.comp_apply, hfe x]
    have hu' : db.users.find? (fun x => x.email == some email) = some u := hu
    have hfind2 : getUserByEmail email (deactivateUser u.id db) =
        some { u with isActive := false } := by
      simp only [getUserByEmail, deactivateUser]
      rw [List.find?_map, hpf, hu']
      simp
    simp only [authenticateUser, hfind2]
    cases hph : u.passwordHash with
    | none => simp [hph]
    | some h => by_cases hh : h == "" <;> simp [hph, hh]

/-- A deactivated user who still has a valid password hash. -/
def userInactive : User :=
  { id := "u9", email := some "a@b.c", passwordHash := some "h4sh", role := "user",
    isActive := false }

/-- Store holding just the deactivated user. -/
def dbUsers : DB :=
  { users := [userInactive], scannedBoards := [], lots := [], userSessions := [] }

/-- Witness for the lock-out claim: even with an always-succeeding
password check (the correct password), the inactive user cannot log in,
before or after a further deactivation call. -/
theorem authenticateUser_locked_out_witness :
    (getUserByEmail "a@b.c" dbUsers = some userInactive ∧ userInactive.isActive = false) ∧
    authenticateUser (fun _ _ => true) "a@b.c" "anypw" dbUsers = none ∧
    authenticateUser (fun _ _ => true) "a@b.c" "anypw"
      (deactivateUser userInactive.id dbUsers) = none := by
  have hu : getUserByEmail "a@b.c" dbUsers = some userInactive := by decide
  have h := authenticateUser_locked_out (fun _ _ => true) "a@b.c" "anypw" dbUsers
    userInactive hu (Or.inl rfl)
  exact ⟨⟨hu, rfl⟩, h.1, h.2⟩

end MRX
